import Mathlib

/-!
Shallow embedding of the currency-analyzer core: the walk-forward backtest
simulator of src/modules/backtest.py and the numeric cores of the detectors in
src/modules/currency.py.  Python floats are modelled as exact rationals; Python
`round(x, d)` is modelled by decimal rounding of the rational value; a
ZeroDivisionError that the source catches with a surrounding try/except
(returning None) is modelled by an explicit `none` branch at the place the
division would occur.
-/

/-- Python slice `l[-p:]`.  For `p = 0` Python's `l[-0:]` is the whole list,
hence the special case. -/
def sliceLast {α : Type} (l : List α) (p : ℕ) : List α :=
  if p = 0 then l else l.drop (l.length - p)

/-- Decimal rounding, modelling Python `round(x, d)` on the rational model of
floats (Python's float round is half-to-even in binary; on the values exercised
here the two agree). -/
def roundq (d : ℕ) (x : ℚ) : ℚ :=
  ((round (x * 10 ^ d) : ℤ) : ℚ) / 10 ^ d

/-- One cleaned OHLC candle (run_backtest coerces every field to float and
back-fills missing open/high/low with the close before the walk starts). -/
structure Candle where
  date : String
  open_ : ℚ
  high : ℚ
  low : ℚ
  close : ℚ
deriving DecidableEq

instance : Inhabited Candle := ⟨⟨"", 0, 0, 0, 0⟩⟩

/-- The Trade dataclass of backtest.py. -/
structure Trade where
  entry_date : String
  entry_price : ℚ
  exit_date : String
  exit_price : ℚ
  pnl_pct : ℚ
  holding_days : ℤ
  exit_reason : String
deriving DecidableEq

instance : Inhabited Trade := ⟨⟨"", 0, "", 0, 0, 0, ""⟩⟩

/-- backtest._sma: mean of the last `period` values; none when `period ≤ 0` or
there are fewer than `period` values. -/
def _sma (values : List ℚ) (period : ℕ) : Option ℚ :=
  if period = 0 then none
  else if values.length < period then none
  else some ((sliceLast values period).sum / period)

/-- backtest._linear_regression_slope_r2: OLS of value against index 0..n-1,
returning (slope, r2); none for fewer than 2 points or zero index variance. -/
def _linear_regression_slope_r2 (values : List ℚ) : Option (ℚ × ℚ) :=
  if values.length < 2 then none
  else
    let n : ℚ := values.length
    let x_mean : ℚ := (n - 1) / 2
    let y_mean : ℚ := values.sum / n
    let pts := (List.range values.length).zip values
    let ssxx : ℚ := (pts.map fun p => ((p.1 : ℚ) - x_mean) * ((p.1 : ℚ) - x_mean)).sum
    let ssxy : ℚ := (pts.map fun p => ((p.1 : ℚ) - x_mean) * (p.2 - y_mean)).sum
    if ssxx = 0 then none
    else
      let slope := ssxy / ssxx
      let intercept := y_mean - slope * x_mean
      let ss_tot : ℚ := (values.map fun y => (y - y_mean) ^ 2).sum
      let ss_res : ℚ := (pts.map fun p => (p.2 - (slope * (p.1 : ℚ) + intercept)) ^ 2).sum
      let r2 := if ss_tot = 0 then (if ss_res = 0 then (1 : ℚ) else 0) else 1 - ss_res / ss_tot
      some (slope, r2)

/-- The shared consistency rule: every point is at least 99.8% of the point
before it (`all(recent[i] >= recent[i-1] * 0.998 ...)`). -/
def trendConsistent (l : List ℚ) : Bool :=
  (l.zip l.tail).all fun p => decide (p.1 * 0.998 ≤ p.2)

/-- The price_level branch of backtest._eval_entry_signal.  Reversed bounds are
swapped; the trigger uses the intraday extreme of the last candle when a candle
window is supplied, else the close. -/
def evalPriceLevel (trigger_type : String) (price_high price_low : Option ℚ)
    (window_rates : List ℚ) (window_candles : Option (List Candle)) : Bool :=
  let bounds : Option ℚ × Option ℚ :=
    match price_low, price_high with
    | some l, some h => if h < l then (some h, some l) else (some l, some h)
    | l, h => (l, h)
  let lo := bounds.1
  let hi := bounds.2
  if window_rates.length < 2 then false
  else
    let prev := window_rates.getD (window_rates.length - 2) 0
    let cur := window_rates.getLastD 0
    let cur_candle : Option Candle :=
      match window_candles with
      | some cs => cs.getLast?
      | none => none
    let cur_high := cur_candle.map Candle.high
    let cur_low := cur_candle.map Candle.low
    if trigger_type = "crosses_above" then
      match hi with
      | some hv =>
          decide (prev < hv) &&
            ((match cur_high with | some ch => decide (hv ≤ ch) | none => false) || decide (hv ≤ cur))
      | none => false
    else if trigger_type = "crosses_below" then
      match lo with
      | some lv =>
          decide (lv < prev) &&
            ((match cur_low with | some cl => decide (cl ≤ lv) | none => false) || decide (cur ≤ lv))
      | none => false
    else if trigger_type = "between" then
      match lo, hi with
      | some lv, some hv => decide (lv ≤ cur) && decide (cur ≤ hv)
      | _, _ => false
    else false

/-- The moving_average_crossover branch of backtest._eval_entry_signal. -/
def evalMovingAverageCrossover (short_ma_period long_ma_period : ℕ) (signal_type : String)
    (window_rates : List ℚ) : Bool :=
  if long_ma_period ≤ short_ma_period then false
  else if window_rates.length < long_ma_period + 1 then false
  else
    match _sma window_rates short_ma_period, _sma window_rates.dropLast short_ma_period,
        _sma window_rates long_ma_period, _sma window_rates.dropLast long_ma_period with
    | some short_today, some short_yday, some long_today, some long_yday =>
        if signal_type = "golden_cross" then
          decide (short_yday ≤ long_yday) && decide (long_today < short_today)
        else if signal_type = "death_cross" then
          decide (long_yday ≤ short_yday) && decide (short_today < long_today)
        else false
    | _, _, _, _ => false

/-- The percentage_change branch of backtest._eval_entry_signal. -/
def evalPercentageChange (detection_period : ℕ) (change_threshold : ℚ)
    (enable_trend_consistency : Bool) (window_rates : List ℚ) : Bool :=
  if window_rates.length < max 2 detection_period then false
  else
    let segment := sliceLast window_rates detection_period
    let old := segment.headD 0
    let recent := segment.getLastD 0
    if old = 0 then false
    else
      let pct := (recent - old) / old * 100
      if pct < change_threshold then false
      else if !enable_trend_consistency then true
      else trendConsistent (sliceLast segment 5)

/-- The long_term_uptrend branch of backtest._eval_entry_signal: percent-change
confirmation (with optional consistency), MA-state confirmation and regression
confirmation must all hold. -/
def evalLongTermUptrend (detection_period : ℕ) (change_threshold : ℚ)
    (enable_trend_consistency : Bool) (short_ma_period long_ma_period : ℕ)
    (window_rates : List ℚ) : Bool :=
  let lookback := max (max detection_period (long_ma_period + 2)) 60
  if window_rates.length < lookback then false
  else
    let segment := sliceLast window_rates detection_period
    if segment.length < 2 then false
    else
      let old := segment.headD 0
      let recent := segment.getLastD 0
      if old = 0 then false
      else
        let pct := (recent - old) / old * 100
        let consistency_ok := trendConsistent (sliceLast segment 5)
        let pct_ok := decide (change_threshold ≤ pct) &&
          (if enable_trend_consistency then consistency_ok else true)
        let ma_ok :=
          match _sma window_rates short_ma_period, _sma window_rates long_ma_period,
              _sma window_rates.dropLast long_ma_period with
          | some short_today, some long_today, some long_yday =>
              decide (long_today < short_today) && decide (long_yday ≤ long_today)
          | _, _, _ => false
        let reg_ok :=
          match _linear_regression_slope_r2 segment with
          | some sr => decide (0 < sr.1) && decide ((0.25 : ℚ) ≤ sr.2)
          | none => false
        pct_ok && ma_ok && reg_ok

/-- Entry condition configurations, one variant per branch of
backtest._eval_entry_signal (the string dispatch of the source becomes a closed
sum; an unknown type string evaluates to False in the source and has no
counterpart here). -/
inductive EntryConfig where
  | price_level (trigger_type : String) (price_high price_low : Option ℚ)
  | moving_average_crossover (short_ma_period long_ma_period : ℕ) (signal_type : String)
  | percentage_change (detection_period : ℕ) (change_threshold : ℚ)
      (enable_trend_consistency : Bool)
  | long_term_uptrend (detection_period : ℕ) (change_threshold : ℚ)
      (enable_trend_consistency : Bool) (short_ma_period long_ma_period : ℕ)
deriving DecidableEq

/-- backtest._eval_entry_signal: dispatch over the entry condition kind. -/
def _eval_entry_signal (entry : EntryConfig) (window_rates : List ℚ)
    (window_candles : Option (List Candle)) : Bool :=
  match entry with
  | .price_level trigger_type price_high price_low =>
      evalPriceLevel trigger_type price_high price_low window_rates window_candles
  | .moving_average_crossover short_p long_p signal_type =>
      evalMovingAverageCrossover short_p long_p signal_type window_rates
  | .percentage_change period threshold enable_consistency =>
      evalPercentageChange period threshold enable_consistency window_rates
  | .long_term_uptrend period threshold enable_consistency short_p long_p =>
      evalLongTermUptrend period threshold enable_consistency short_p long_p window_rates

/-- Exit configuration (backtest.run_backtest's exit_cfg dict; the source
smuggles the current candle through a private dict key, which the embedding
replaces by an explicit parameter of the evaluator). -/
structure ExitConfig where
  stop_loss_pct : Option ℚ := none
  take_profit_pct : Option ℚ := none
  max_holding_days : Option ℤ := none
  signal : Option EntryConfig := none
deriving DecidableEq

/-- backtest._eval_exit: stop/take levels from the entry price, tested against
the intraday extremes of the current candle when available (else the close),
then the time exit, then the optional exit signal evaluated on closes only. -/
def _eval_exit (exit_cfg : ExitConfig) (entry_price : ℚ) (entry_index cur_index : ℕ)
    (window_rates : List ℚ) (cur_candle : Option Candle) : Bool × String × Option ℚ :=
  let cur_price := window_rates.getLastD 0
  let cur_low := cur_candle.map Candle.low
  let cur_high := cur_candle.map Candle.high
  let stop_level : Option ℚ :=
    if entry_price = 0 then none
    else exit_cfg.stop_loss_pct.map fun s => entry_price * (1 - |s| / 100)
  let take_level : Option ℚ :=
    if entry_price = 0 then none
    else exit_cfg.take_profit_pct.map fun t => entry_price * (1 + |t| / 100)
  let low_for_checks := cur_low.getD cur_price
  let high_for_checks := cur_high.getD cur_price
  let hit_stop := match stop_level with
    | some sl => decide (low_for_checks ≤ sl)
    | none => false
  let hit_take := match take_level with
    | some tl => decide (tl ≤ high_for_checks)
    | none => false
  if hit_stop && hit_take then (true, "stop_loss_and_take_profit_same_day", stop_level)
  else if hit_stop then (true, "stop_loss", stop_level)
  else if hit_take then (true, "take_profit", take_level)
  else
    let time_exit := match exit_cfg.max_holding_days with
      | some m => decide (0 < m) && decide (m ≤ (cur_index : ℤ) - (entry_index : ℤ))
      | none => false
    if time_exit then (true, "time_exit", none)
    else
      match exit_cfg.signal with
      | some sig =>
          if _eval_entry_signal sig window_rates none then (true, "signal_exit", none)
          else (false, "", none)
      | none => (false, "", none)

/-- Mutable loop state of the walk in backtest.run_backtest.  `stopped` models
the `break` taken after the first closed trade when allow_multiple_trades is
false (the source's entry_index starts at -1; it is only read while a position
is open, so a natural number with start value 0 is an equivalent model). -/
structure SimState where
  trades : List Trade
  in_position : Bool
  entry_price : ℚ
  entry_date : String
  entry_index : ℕ
  stopped : Bool
deriving DecidableEq

def initSimState : SimState := ⟨[], false, 0, "", 0, false⟩

/-- One iteration of the walk of backtest.run_backtest at day index `i`:
the window is the candle prefix [0..i]; open a position on an entry trigger,
else evaluate the exit on an open position and append the Trade on an exit. -/
def backtestStep (entry : EntryConfig) (exit_cfg : ExitConfig) (candles : List Candle)
    (allow_multiple_trades : Bool) (st : SimState) (i : ℕ) : SimState :=
  if st.stopped then st
  else
    let window := candles.take (i + 1)
    let window_rates := window.map Candle.close
    if !st.in_position then
      if _eval_entry_signal entry window_rates (some window) then
        { st with in_position := true, entry_price := window_rates.getLastD 0,
                  entry_date := (window.getLastD default).date, entry_index := i }
      else st
    else
      let res := _eval_exit exit_cfg st.entry_price st.entry_index i window_rates window.getLast?
      if res.1 then
        let exit_price := res.2.2.getD (window_rates.getLastD 0)
        let exit_date := (window.getLastD default).date
        let pnl_pct := if st.entry_price = 0 then 0
          else (exit_price - st.entry_price) / st.entry_price * 100
        let reason := if res.2.1 = "" then "exit" else res.2.1
        { st with
          trades := st.trades ++
            [⟨st.entry_date, roundq 6 st.entry_price, exit_date, roundq 6 exit_price,
              roundq 4 pnl_pct, (i : ℤ) - (st.entry_index : ℤ), reason⟩],
          in_position := false,
          stopped := !allow_multiple_trades }
      else st

/-- The full walk over day indices 1 .. n-1 (index 0 is warm-up only). -/
def backtestWalk (entry : EntryConfig) (exit_cfg : ExitConfig) (candles : List Candle)
    (allow_multiple_trades : Bool) : SimState :=
  (List.range' 1 (candles.length - 1)).foldl
    (backtestStep entry exit_cfg candles allow_multiple_trades) initSimState

/-- After the walk: a position still open is force-closed at the final close
with exit_reason "end_of_data". -/
def finalizeTrades (candles : List Candle) (st : SimState) : List Trade :=
  if st.in_position then
    let exit_price := (candles.getLastD default).close
    let exit_date := (candles.getLastD default).date
    let pnl_pct := if st.entry_price = 0 then 0
      else (exit_price - st.entry_price) / st.entry_price * 100
    st.trades ++
      [⟨st.entry_date, roundq 6 st.entry_price, exit_date, roundq 6 exit_price,
        roundq 4 pnl_pct, ((candles.length : ℤ) - 1) - (st.entry_index : ℤ), "end_of_data"⟩]
  else st.trades

/-- The trade ledger produced by backtest.run_backtest from cleaned candles. -/
def backtestTrades (entry : EntryConfig) (exit_cfg : ExitConfig) (candles : List Candle)
    (allow_multiple_trades : Bool) : List Trade :=
  finalizeTrades candles (backtestWalk entry exit_cfg candles allow_multiple_trades)

/-- Walk step paired with a counter of opened positions: the counter increments
exactly when the step takes the state from flat to in-position. -/
def backtestStepCounting (entry : EntryConfig) (exit_cfg : ExitConfig) (candles : List Candle)
    (allow_multiple_trades : Bool) (p : SimState × ℕ) (i : ℕ) : SimState × ℕ :=
  let st2 := backtestStep entry exit_cfg candles allow_multiple_trades p.1 i
  (st2, p.2 + (if !p.1.in_position && st2.in_position then 1 else 0))

/-- Number of positions the simulator opens during the walk. -/
def openedPositions (entry : EntryConfig) (exit_cfg : ExitConfig) (candles : List Candle)
    (allow_multiple_trades : Bool) : ℕ :=
  ((List.range' 1 (candles.length - 1)).foldl
    (backtestStepCounting entry exit_cfg candles allow_multiple_trades) (initSimState, 0)).2

/-- backtest._equity_curve_from_trades, tail of the curve after the initial
capital entry. -/
def equityFold (e : ℚ) : List Trade → List ℚ
  | [] => []
  | t :: ts => (e * (1 + t.pnl_pct / 100)) :: equityFold (e * (1 + t.pnl_pct / 100)) ts

/-- backtest._equity_curve_from_trades: equity[0] = initial capital, then
sequential compounding by each trade's pnl_pct. -/
def _equity_curve_from_trades (trades : List Trade) (initial_capital : ℚ) : List ℚ :=
  initial_capital :: equityFold initial_capital trades

/-- Loop of backtest._max_drawdown: track the running peak and the largest
(peak - value)/peak seen so far. -/
def ddGo : List ℚ → ℚ → ℚ → ℚ
  | [], _, max_dd => max_dd
  | v :: rest, peak, max_dd =>
    let peak2 := if peak < v then v else peak
    let dd2 := if 0 < peak2 then
        (if max_dd < (peak2 - v) / peak2 then (peak2 - v) / peak2 else max_dd)
      else max_dd
    ddGo rest peak2 dd2

/-- backtest._max_drawdown. -/
def _max_drawdown (curve : List ℚ) : ℚ :=
  match curve with
  | [] => 0
  | c :: _ => ddGo curve c 0 * 100

/-- The win_rate computation of backtest.run_backtest's summary block:
wins are the trades with strictly positive pnl_pct. -/
def win_rate (trades : List Trade) : ℚ :=
  let wins := trades.filter fun t => decide (0 < t.pnl_pct)
  if trades.isEmpty then 0 else (wins.length : ℚ) / trades.length * 100

/-- Result dict of currency.detect_historical_high. -/
structure HistHighResult where
  is_high : Bool
  current_rate : ℚ
  max_rate : ℚ
  min_rate : ℚ
  proximity_percent : ℚ
deriving DecidableEq

/-- Result dict of currency.detect_historical_low. -/
structure HistLowResult where
  is_low : Bool
  current_rate : ℚ
  max_rate : ℚ
  min_rate : ℚ
  proximity_percent : ℚ
deriving DecidableEq

/-- Numeric core of currency.detect_historical_high over the fetched rate
window.  The proximity_percent division by (max - min) is unguarded in the
source; when the window's max equals its min the ZeroDivisionError is caught by
the enclosing try/except and the function returns None, modelled by the
explicit `none` branch. -/
def detect_historical_high (rates : List ℚ) : Option HistHighResult :=
  if rates.length < 2 then none
  else
    let current_rate := rates.getLastD 0
    let max_rate := rates.foldl max (rates.headD 0)
    let min_rate := rates.foldl min (rates.headD 0)
    if max_rate - min_rate = 0 then none
    else
      some ⟨decide (|current_rate - max_rate| < max_rate * 0.001),
        roundq 4 current_rate, roundq 4 max_rate, roundq 4 min_rate,
        roundq 2 ((current_rate - min_rate) / (max_rate - min_rate) * 100)⟩

/-- Numeric core of currency.detect_historical_low; same unguarded
proximity_percent division as detect_historical_high. -/
def detect_historical_low (rates : List ℚ) : Option HistLowResult :=
  if rates.length < 2 then none
  else
    let current_rate := rates.getLastD 0
    let max_rate := rates.foldl max (rates.headD 0)
    let min_rate := rates.foldl min (rates.headD 0)
    if max_rate - min_rate = 0 then none
    else
      some ⟨decide (|current_rate - min_rate| < min_rate * 0.001),
        roundq 4 current_rate, roundq 4 max_rate, roundq 4 min_rate,
        roundq 2 ((current_rate - min_rate) / (max_rate - min_rate) * 100)⟩

/-- Day-over-day percentage returns, `((r[i] - r[i-1]) / r[i-1]) * 100`. -/
def returnsOf (l : List ℚ) : List ℚ :=
  (l.zip l.tail).map fun p => (p.2 - p.1) / p.1 * 100

/-- Result of currency.detect_volatility_spike.  The source stores the square
roots of these variances (floats); the verdict compares the volatility ratio
with 2.0 / 0.5, which squares to comparing the variances with 4 / (1/4), so a
rational model can carry the variances instead of the irrational square roots. -/
structure VolatilitySpikeResult where
  is_spike : Bool
  variance_recent : ℚ
  variance_older : ℚ
  volatility_type : String
deriving DecidableEq

/-- Numeric core of currency.detect_volatility_spike over the fetched rate
window.  Every `none` branch below marks a ZeroDivisionError of the source
(zero previous rate inside a return, or `sum(xs)/len(xs)` on an empty returns
list when the recent or the older segment has fewer than two points) that the
enclosing try/except converts into a None result.  is_spike follows the source:
ratio = recent_vol / older_vol when older_vol > 0 else 0; high means ratio >
2.0, low means ratio < 0.5, expressed on the variances. -/
def detect_volatility_spike (rates : List ℚ) (lookback_period : ℕ)
    (volatility_type : String) : Option VolatilitySpikeResult :=
  if rates.length < lookback_period then none
  else
    let recent_data := sliceLast rates lookback_period
    if recent_data.dropLast.any (fun r => decide (r = 0)) then none
    else if (returnsOf recent_data).length = 0 then none
    else
      let recent_returns := returnsOf recent_data
      let mean_return := recent_returns.sum / (recent_returns.length : ℚ)
      let variance := (recent_returns.map fun r => (r - mean_return) ^ 2).sum /
        (recent_returns.length : ℚ)
      let older_data := if lookback_period = 0 then []
        else rates.take (rates.length - lookback_period)
      if older_data.dropLast.any (fun r => decide (r = 0)) then none
      else if (returnsOf older_data).length = 0 then none
      else
        let older_returns := returnsOf older_data
        let mean_old := older_returns.sum / (older_returns.length : ℚ)
        let variance_old := (older_returns.map fun r => (r - mean_old) ^ 2).sum /
          (older_returns.length : ℚ)
        let is_spike :=
          (volatility_type = "high" && decide (0 < variance_old) &&
            decide (4 * variance_old < variance)) ||
          (volatility_type = "low" &&
            (decide (variance_old = 0) || decide (4 * variance < variance_old)))
        some ⟨is_spike, variance, variance_old, volatility_type⟩

/-- Result dict of currency.detect_moving_average_crossover. -/
structure MACrossoverResult where
  is_crossover : Bool
  short_ma : ℚ
  long_ma : ℚ
  current_rate : ℚ
  signal_type : String
deriving DecidableEq

/-- Numeric core of currency.detect_moving_average_crossover over the fetched
rate window.  Unlike the backtest entry evaluator, the source has NO guard
requiring long_period > short_period.  A zero period makes the source divide by
zero (caught by the try/except, hence `none`); the yesterday averages fall back
to today's when the window is not longer than the period, as in the source. -/
def detect_moving_average_crossover (rates : List ℚ) (short_period long_period : ℕ)
    (signal_type : String) : Option MACrossoverResult :=
  if rates.length < long_period then none
  else if short_period = 0 ∨ long_period = 0 then none
  else
    let short_ma_today := (sliceLast rates short_period).sum / short_period
    let short_ma_yesterday := if short_period < rates.length then
        (sliceLast rates.dropLast short_period).sum / short_period
      else short_ma_today
    let long_ma_today := (sliceLast rates long_period).sum / long_period
    let long_ma_yesterday := if long_period < rates.length then
        (sliceLast rates.dropLast long_period).sum / long_period
      else long_ma_today
    let is_crossover :=
      if signal_type = "golden_cross" then
        decide (short_ma_yesterday ≤ long_ma_yesterday) && decide (long_ma_today < short_ma_today)
      else if signal_type = "death_cross" then
        decide (long_ma_yesterday ≤ short_ma_yesterday) && decide (short_ma_today < long_ma_today)
      else false
    some ⟨is_crossover, roundq 4 short_ma_today, roundq 4 long_ma_today,
      roundq 4 (rates.getLastD 0), signal_type⟩

/-- Modelled from the spec: price_level cross detection using only the previous
and the current closing price (no intrabar extremes), with the same reversed-
bound normalization.  Used to compare against the exit-signal evaluation path,
which passes no candle window to the signal evaluator. -/
def closeOnlyPriceLevel (trigger_type : String) (price_high price_low : Option ℚ)
    (window_rates : List ℚ) : Bool :=
  let bounds : Option ℚ × Option ℚ :=
    match price_low, price_high with
    | some l, some h => if h < l then (some h, some l) else (some l, some h)
    | l, h => (l, h)
  let lo := bounds.1
  let hi := bounds.2
  if window_rates.length < 2 then false
  else
    let prev := window_rates.getD (window_rates.length - 2) 0
    let cur := window_rates.getLastD 0
    if trigger_type = "crosses_above" then
      match hi with
      | some hv => decide (prev < hv) && decide (hv ≤ cur)
      | none => false
    else if trigger_type = "crosses_below" then
      match lo with
      | some lv => decide (lv < prev) && decide (cur ≤ lv)
      | none => false
    else if trigger_type = "between" then
      match lo, hi with
      | some lv, some hv => decide (lv ≤ cur) && decide (cur ≤ hv)
      | _, _ => false
    else false

/-- Modelled from the spec: the drawdown percentage at each curve point,
tracking the running peak as the maximum equity seen so far. -/
def specDrawdowns (peak : ℚ) : List ℚ → List ℚ
  | [] => []
  | v :: rest => (max peak v - v) / max peak v * 100 :: specDrawdowns (max peak v) rest

/-- Modelled from the spec: max_drawdown_pct is the maximum over the equity
curve of (running_peak - value)/running_peak x 100, and 0 when no drawdown
ever occurs. -/
def specMaxDrawdown (curve : List ℚ) : ℚ :=
  match curve with
  | [] => 0
  | c :: _ => (specDrawdowns c curve).foldl max 0

/-- Modelled from the spec: the percent-change confirmation of
long_term_uptrend over the trailing `period` window, with the shared
consistency rule applied when required (a zero first price gives no defined
percent change, so it is part of the confirmation). -/
def pctConfirmation (detection_period : ℕ) (change_threshold : ℚ)
    (enable_trend_consistency : Bool) (window_rates : List ℚ) : Prop :=
  sliceLast window_rates detection_period ≠ [] ∧
  (sliceLast window_rates detection_period).headD 0 ≠ 0 ∧
  change_threshold ≤
    ((sliceLast window_rates detection_period).getLastD 0 -
      (sliceLast window_rates detection_period).headD 0) /
      (sliceLast window_rates detection_period).headD 0 * 100 ∧
  (trendConsistent (sliceLast (sliceLast window_rates detection_period) 5) = true ∨
    enable_trend_consistency = false)

/-- Modelled from the spec: the MA-state confirmation of long_term_uptrend,
short SMA(today) > long SMA(today) and long SMA(today) ≥ long SMA(yesterday);
the SMAs must be defined for the state to hold. -/
def maConfirmation (short_ma_period long_ma_period : ℕ) (window_rates : List ℚ) : Prop :=
  ∃ short_today long_today long_yday : ℚ,
    _sma window_rates short_ma_period = some short_today ∧
    _sma window_rates long_ma_period = some long_today ∧
    _sma window_rates.dropLast long_ma_period = some long_yday ∧
    long_today < short_today ∧ long_yday ≤ long_today

/-- Modelled from the spec: the regression confirmation of long_term_uptrend,
slope > 0 and r_squared ≥ 0.25 over the trailing `period` window. -/
def regConfirmation (detection_period : ℕ) (window_rates : List ℚ) : Prop :=
  ∃ slope r2 : ℚ,
    _linear_regression_slope_r2 (sliceLast window_rates detection_period) = some (slope, r2) ∧
    0 < slope ∧ (0.25 : ℚ) ≤ r2

/-- Claim C1 counterexample: on an entry at 100 with stop_loss_pct = 5 and
take_profit_pct = 5 and a candle with low 94 ≤ 95 and high 106 ≥ 105, the exit
evaluator fills at stop_level 95 but labels the exit
"stop_loss_and_take_profit_same_day", not "stop_loss" as the claim states. -/
theorem claim_C1_counterexample :
    (_eval_exit ⟨some 5, some 5, none, none⟩ 100 0 1 [100]
        (some ⟨"d", 100, 106, 94, 100⟩)).2.1 = "stop_loss_and_take_profit_same_day" ∧
    ("stop_loss_and_take_profit_same_day" : String) ≠ "stop_loss" ∧
    (_eval_exit ⟨some 5, some 5, none, none⟩ 100 0 1 [100]
        (some ⟨"d", 100, 106, 94, 100⟩)).2.2 = some 95 := by
  refine ⟨?_, by decide, ?_⟩ <;> norm_num [_eval_exit]

/-- Claim C1 (amended): when both the stop level and the take level are
breached on the same candle, the exit evaluator closes the trade at the stop
level (the conservative fill) with exit_reason
"stop_loss_and_take_profit_same_day". -/
theorem claim_C1_amended (exit_cfg : ExitConfig) (entry_price : ℚ)
    (entry_index cur_index : ℕ) (window_rates : List ℚ) (c : Candle) (s t : ℚ)
    (hs : exit_cfg.stop_loss_pct = some s) (ht : exit_cfg.take_profit_pct = some t)
    (hp : entry_price ≠ 0)
    (hlow : c.low ≤ entry_price * (1 - |s| / 100))
    (hhigh : entry_price * (1 + |t| / 100) ≤ c.high) :
    _eval_exit exit_cfg entry_price entry_index cur_index window_rates (some c) =
      (true, "stop_loss_and_take_profit_same_day", some (entry_price * (1 - |s| / 100))) := by
  unfold _eval_exit
  simp [hs, ht, hp, hlow, hhigh]

/-- Claim C1 witness: the amended theorem applied at the tie-break inputs of
the claim. -/
theorem claim_C1_witness :
    _eval_exit ⟨some 5, some 5, none, none⟩ 100 0 1 [100]
        (some ⟨"d", 100, 106, 94, 100⟩) =
      (true, "stop_loss_and_take_profit_same_day", some (100 * (1 - |(5 : ℚ)| / 100))) :=
  claim_C1_amended ⟨some 5, some 5, none, none⟩ 100 0 1 [100] ⟨"d", 100, 106, 94, 100⟩ 5 5
    rfl rfl (by norm_num) (by norm_num) (by norm_num)

/-- Claim C7 counterexample: the monitoring-side detector
currency.detect_moving_average_crossover has no guard on reversed MA periods;
with short_period 2, long_period 1 and rates [1, 2, 1] it reports a
golden_cross, so the configuration is not permanently non-triggering there. -/
theorem claim_C7_counterexample :
    (detect_moving_average_crossover [1, 2, 1] 2 1 "golden_cross").map
      MACrossoverResult.is_crossover = some true := by
  norm_num [detect_moving_average_crossover, sliceLast]

/-- Claim C7 (amended): the backtest entry evaluator treats a
moving_average_crossover configuration with long_period ≤ short_period as
permanently non-triggering, for every window, candle window and signal; the
standalone detector in currency.py lacks this guard and can trigger. -/
theorem claim_C7_amended (short_p long_p : ℕ) (signal_type : String)
    (window_rates : List ℚ) (window_candles : Option (List Candle))
    (h : long_p ≤ short_p) :
    _eval_entry_signal (.moving_average_crossover short_p long_p signal_type)
      window_rates window_candles = false := by
  simp [_eval_entry_signal, evalMovingAverageCrossover, h]

/-- Claim C7 witness: the amended theorem at short_period = 10, long_period =
10, signal golden_cross on a concrete window. -/
theorem claim_C7_witness :
    (10 : ℕ) ≤ 10 ∧
    _eval_entry_signal (.moving_average_crossover 10 10 "golden_cross")
      [1, 2, 3] none = false :=
  ⟨by decide, claim_C7_amended 10 10 "golden_cross" [1, 2, 3] none (by decide)⟩

/-- Claim C9: win_rate is the share of trades with strictly positive pnl_pct,
0 for an empty ledger, and a trade with pnl_pct exactly 0 is not a win. -/
theorem claim_C9_win_rate (trades : List Trade) (t : Trade) (h : t.pnl_pct = 0) :
    win_rate trades = (if trades = [] then 0
      else ((trades.countP fun x => decide (0 < x.pnl_pct)) : ℚ) / trades.length * 100) ∧
    win_rate [] = 0 ∧ win_rate [t] = 0 := by
  refine ⟨?_, by simp [win_rate], ?_⟩
  · unfold win_rate
    rcases trades with _ | ⟨a, l⟩
    · simp
    · simp [List.countP_eq_length_filter]
  · simp [win_rate, h]

/-- Claim C9 witness: the theorem applied to the singleton ledger holding one
zero-pnl trade. -/
theorem claim_C9_win_rate_witness :
    (Trade.mk "a" 1 "b" 1 0 1 "exit").pnl_pct = 0 ∧
    win_rate [Trade.mk "a" 1 "b" 1 0 1 "exit"] = 0 :=
  ⟨rfl, (claim_C9_win_rate [Trade.mk "a" 1 "b" 1 0 1 "exit"]
    (Trade.mk "a" 1 "b" 1 0 1 "exit") rfl).2.2⟩

/-- Claim C10: with no stop or take configured, the exit decision on a
price_level exit signal is independent of the current candle, the signal is
evaluated with no candle window, and (with no time exit either) a signal_exit
fires exactly when the close-only price_level comparison fires - intrabar
extremes can never produce a signal_exit. -/
theorem claim_C10_close_only_exit_signal (trigger_type : String)
    (price_high price_low : Option ℚ) (max_holding_days : Option ℤ)
    (entry_price : ℚ) (entry_index cur_index : ℕ) (window_rates : List ℚ)
    (c1 c2 : Candle) :
    _eval_exit ⟨none, none, max_holding_days,
        some (.price_level trigger_type price_high price_low)⟩
        entry_price entry_index cur_index window_rates (some c1) =
      _eval_exit ⟨none, none, max_holding_days,
        some (.price_level trigger_type price_high price_low)⟩
        entry_price entry_index cur_index window_rates (some c2) ∧
    evalPriceLevel trigger_type price_high price_low window_rates none =
      closeOnlyPriceLevel trigger_type price_high price_low window_rates ∧
    _eval_exit ⟨none, none, none,
        some (.price_level trigger_type price_high price_low)⟩
        entry_price entry_index cur_index window_rates (some c1) =
      (if closeOnlyPriceLevel trigger_type price_high price_low window_rates
        then (true, "signal_exit", none) else (false, "", none)) := by
  have hclose : evalPriceLevel trigger_type price_high price_low window_rates none =
      closeOnlyPriceLevel trigger_type price_high price_low window_rates := by
    unfold evalPriceLevel closeOnlyPriceLevel
    rcases price_low with _ | l <;> rcases price_high with _ | h <;> simp
  refine ⟨?_, hclose, ?_⟩
  · simp [_eval_exit]
  · simp [_eval_exit, _eval_entry_signal, hclose]

/-- Claim C3 counterexample: on a flat two-point window the historical-high
detector returns no result at all (the unguarded proximity division raises and
the try/except yields None) instead of a verdict with proximity skipped, and
the volatility detector on a window exactly lookback long (empty older
segment) likewise returns no result instead of a defined one. -/
theorem claim_C3_counterexample :
    detect_historical_high [1, 1] = none ∧
    detect_volatility_spike [1, 2, 3] 3 "high" = none := by
  constructor <;>
    norm_num [detect_historical_high, detect_volatility_spike, sliceLast, returnsOf]

/-- Claim C3 (amended): the degenerate divisions never escape as a runtime
fault, but the affected evaluation produces no result at all: a window whose
maximum equals its minimum makes detect_historical_high and
detect_historical_low return none (the verdict is dropped, proximity_percent
is not merely skipped), and a window of at most lookback_period + 1 points
(older segment empty or a single point) makes detect_volatility_spike return
none. -/
theorem claim_C3_amended :
    (∀ rates : List ℚ, 2 ≤ rates.length →
      rates.foldl max (rates.headD 0) = rates.foldl min (rates.headD 0) →
      detect_historical_high rates = none ∧ detect_historical_low rates = none) ∧
    (∀ (rates : List ℚ) (lookback_period : ℕ) (volatility_type : String),
      rates.length ≤ lookback_period + 1 →
      detect_volatility_spike rates lookback_period volatility_type = none) := by
  constructor
  · intro rates h2 hflat
    constructor
    · simp only [detect_historical_high]
      rw [if_neg (by omega), if_pos (sub_eq_zero_of_eq hflat)]
    · simp only [detect_historical_low]
      rw [if_neg (by omega), if_pos (sub_eq_zero_of_eq hflat)]
  · intro rates lookback_period volatility_type h
    by_cases hl : rates.length < lookback_period
    · simp [detect_volatility_spike, hl]
    · have hret : (returnsOf (if lookback_period = 0 then ([] : List ℚ)
          else rates.take (rates.length - lookback_period))).length = 0 := by
        unfold returnsOf
        simp only [List.length_map, List.length_zip, List.length_tail]
        split
        · simp
        · simp only [List.length_take]
          omega
      simp [detect_volatility_spike, hl, hret, ite_self]

/-- Claim C3 witness: the amended theorem applied at the flat window [2, 2]
and at a two-point window with lookback_period 1. -/
theorem claim_C3_witness :
    (2 ≤ ([2, 2] : List ℚ).length ∧
      ([2, 2] : List ℚ).foldl max (([2, 2] : List ℚ).headD 0) =
        ([2, 2] : List ℚ).foldl min (([2, 2] : List ℚ).headD 0) ∧
      detect_historical_high [2, 2] = none ∧ detect_historical_low [2, 2] = none) ∧
    (([5, 6] : List ℚ).length ≤ 1 + 1 ∧
      detect_volatility_spike [5, 6] 1 "low" = none) :=
  ⟨⟨by decide, by norm_num, (claim_C3_amended.1 [2, 2] (by decide) (by norm_num)).1,
      (claim_C3_amended.1 [2, 2] (by decide) (by norm_num)).2⟩,
    ⟨by decide, claim_C3_amended.2 [5, 6] 1 "low" (by decide)⟩⟩

/-- Claim C5: for a window with at least long_period + 1 points and
short_period < long_period, the golden_cross signal of
moving_average_crossover triggers iff the short SMA was ≤ the long SMA
yesterday and is strictly above it today; consequently on a day where the
short SMA was already strictly above the long SMA yesterday it does not
trigger again. -/
theorem claim_C5_golden_cross_strict (short_p long_p : ℕ) (window_rates : List ℚ)
    (window_candles : Option (List Candle))
    (short_today short_yday long_today long_yday : ℚ)
    (h1 : short_p < long_p) (h2 : long_p + 1 ≤ window_rates.length)
    (hst : _sma window_rates short_p = some short_today)
    (hsy : _sma window_rates.dropLast short_p = some short_yday)
    (hlt : _sma window_rates long_p = some long_today)
    (hly : _sma window_rates.dropLast long_p = some long_yday) :
    (_eval_entry_signal (.moving_average_crossover short_p long_p "golden_cross")
        window_rates window_candles = true ↔
      short_yday ≤ long_yday ∧ long_today < short_today) ∧
    (long_yday < short_yday →
      _eval_entry_signal (.moving_average_crossover short_p long_p "golden_cross")
        window_rates window_candles = false) := by
  have key : _eval_entry_signal (.moving_average_crossover short_p long_p "golden_cross")
      window_rates window_candles =
      (decide (short_yday ≤ long_yday) && decide (long_today < short_today)) := by
    simp [_eval_entry_signal, evalMovingAverageCrossover, Nat.not_le.mpr h1,
      Nat.not_lt.mpr h2, hst, hsy, hlt, hly]
  constructor
  · rw [key]
    simp
  · intro hgt
    rw [key]
    simp [Nat.not_le, not_le.mpr hgt]

/-- Claim C5 witness: the theorem at short_period 1, long_period 3 on the
window [1, 2, 3, 10], whose four SMAs are 10, 3, 5 and 2. -/
theorem claim_C5_witness :
    ((1 : ℕ) < 3 ∧ 3 + 1 ≤ ([1, 2, 3, 10] : List ℚ).length ∧
      _sma [1, 2, 3, 10] 1 = some 10 ∧
      _sma ([1, 2, 3, 10] : List ℚ).dropLast 1 = some 3 ∧
      _sma [1, 2, 3, 10] 3 = some 5 ∧
      _sma ([1, 2, 3, 10] : List ℚ).dropLast 3 = some 2) ∧
    ((_eval_entry_signal (.moving_average_crossover 1 3 "golden_cross")
        [1, 2, 3, 10] none = true ↔ (3 : ℚ) ≤ 2 ∧ (5 : ℚ) < 10) ∧
      ((2 : ℚ) < 3 → _eval_entry_signal (.moving_average_crossover 1 3 "golden_cross")
        [1, 2, 3, 10] none = false)) :=
  ⟨⟨by decide, by decide, by norm_num [_sma, sliceLast], by norm_num [_sma, sliceLast],
      by norm_num [_sma, sliceLast], by norm_num [_sma, sliceLast]⟩,
    claim_C5_golden_cross_strict 1 3 [1, 2, 3, 10] none 10 3 5 2 (by decide) (by decide)
      (by norm_num [_sma, sliceLast]) (by norm_num [_sma, sliceLast])
      (by norm_num [_sma, sliceLast]) (by norm_num [_sma, sliceLast])⟩

/-- Percent change (last - first)/first x 100 of a window, as the evaluators
compute it. -/
def pctChange (l : List ℚ) : ℚ := (l.getLastD 0 - l.headD 0) / l.headD 0 * 100

/-- A Python tail slice keeps every element of the list. -/
theorem sliceLast_subset {α : Type} (l : List α) (p : ℕ) : sliceLast l p ⊆ l := by
  unfold sliceLast
  split
  · exact fun a h => h
  · exact List.drop_subset _ _

/-- A Python tail slice of a nonempty list is nonempty. -/
theorem sliceLast_ne_nil {α : Type} (l : List α) (p : ℕ) (h : l ≠ []) :
    sliceLast l p ≠ [] := by
  have hlen := List.length_pos.mpr h
  unfold sliceLast
  split
  next => exact h
  next hp =>
    intro hd
    have hle := List.drop_eq_nil_iff.mp hd
    omega

/-- A Python tail slice of a strictly ascending window is strictly ascending. -/
theorem chain'_sliceLast {α : Type} {R : α → α → Prop} (l : List α) (p : ℕ)
    (h : List.Chain' R l) : List.Chain' R (sliceLast l p) := by
  unfold sliceLast
  split
  · exact h
  · exact h.drop _

/-- The head of a nonempty list is a member, stated for headD. -/
theorem headD_mem {α : Type} (l : List α) (h : l ≠ []) (d : α) : l.headD d ∈ l := by
  cases l with
  | nil => exact absurd rfl h
  | cons a t => simp

/-- A strictly increasing window of positive prices passes the 99.8%
consistency rule: each point exceeds the previous one, hence certainly 99.8%
of it. -/
theorem trendConsistent_of_chain : ∀ l : List ℚ, (∀ x ∈ l, 0 < x) →
    List.Chain' (· < ·) l → trendConsistent l = true
  | [] => fun _ _ => rfl
  | [_] => fun _ _ => rfl
  | a :: b :: t => fun hpos hch => by
      have hab : a < b := (List.chain'_cons.mp hch).1
      have ha : 0 < a := hpos a (by simp)
      have ih : trendConsistent (b :: t) = true :=
        trendConsistent_of_chain (b :: t) (fun x hx => hpos x (by simp [hx]))
          (List.chain'_cons.mp hch).2
      have hstep : a * (0.998 : ℚ) ≤ b := by nlinarith
      simp only [trendConsistent, List.tail_cons, List.zip_cons_cons, List.all_cons] at ih ⊢
      simp only [ih, Bool.and_true, decide_eq_true_eq]
      exact hstep

/-- Claim C6: percentage_change triggers iff the percent change over the most
recent detection_period points reaches the threshold and the consistency rule
holds or is disabled; every strictly increasing positive window with enough
gain triggers, and a window with insufficient gain never triggers. -/
theorem claim_C6_percentage_change (detection_period : ℕ) (change_threshold : ℚ)
    (enable_trend_consistency : Bool) (window_rates : List ℚ)
    (window_candles : Option (List Candle))
    (hlen : max 2 detection_period ≤ window_rates.length)
    (hpos : ∀ x ∈ window_rates, 0 < x) :
    (_eval_entry_signal (.percentage_change detection_period change_threshold
        enable_trend_consistency) window_rates window_candles = true ↔
      (change_threshold ≤ pctChange (sliceLast window_rates detection_period) ∧
        (trendConsistent (sliceLast (sliceLast window_rates detection_period) 5) = true ∨
          enable_trend_consistency = false))) ∧
    (List.Chain' (· < ·) window_rates →
      change_threshold ≤ pctChange (sliceLast window_rates detection_period) →
      _eval_entry_signal (.percentage_change detection_period change_threshold
        enable_trend_consistency) window_rates window_candles = true) ∧
    (pctChange (sliceLast window_rates detection_period) < change_threshold →
      _eval_entry_signal (.percentage_change detection_period change_threshold
        enable_trend_consistency) window_rates window_candles = false) := by
  have hne : window_rates ≠ [] := by
    intro h
    rw [h] at hlen
    simp at hlen
  have hsegne : sliceLast window_rates detection_period ≠ [] :=
    sliceLast_ne_nil _ _ hne
  have hold : 0 < (sliceLast window_rates detection_period).headD 0 :=
    hpos _ (sliceLast_subset _ _ (headD_mem _ hsegne 0))
  have key : _eval_entry_signal (.percentage_change detection_period change_threshold
      enable_trend_consistency) window_rates window_candles =
      (if pctChange (sliceLast window_rates detection_period) < change_threshold then false
        else if !enable_trend_consistency then true
        else trendConsistent (sliceLast (sliceLast window_rates detection_period) 5)) := by
    simp only [_eval_entry_signal, evalPercentageChange]
    rw [if_neg (Nat.not_lt.mpr hlen), if_neg (ne_of_gt hold)]
    rfl
  have main : _eval_entry_signal (.percentage_change detection_period change_threshold
      enable_trend_consistency) window_rates window_candles = true ↔
      (change_threshold ≤ pctChange (sliceLast window_rates detection_period) ∧
        (trendConsistent (sliceLast (sliceLast window_rates detection_period) 5) = true ∨
          enable_trend_consistency = false)) := by
    rw [key]
    by_cases h1 : pctChange (sliceLast window_rates detection_period) < change_threshold
    · simp [h1, not_le.mpr h1]
    · by_cases h2 : enable_trend_consistency
      · simp [h1, h2, not_lt.mp h1]
      · simp [h1, h2, not_lt.mp h1]
  refine ⟨main, ?_, ?_⟩
  · intro hch hge
    have htc : trendConsistent (sliceLast (sliceLast window_rates detection_period) 5) = true :=
      trendConsistent_of_chain _
        (fun x hx => hpos x (sliceLast_subset _ _ (sliceLast_subset _ _ hx)))
        (chain'_sliceLast _ _ (chain'_sliceLast _ _ hch))
    exact main.mpr ⟨hge, Or.inl htc⟩
  · intro hlt
    cases heval : _eval_entry_signal (.percentage_change detection_period change_threshold
        enable_trend_consistency) window_rates window_candles with
    | false => rfl
    | true => exact absurd (main.mp heval).1 (not_le.mpr hlt)

/-- Claim C6 witness: the theorem at period 3, threshold 50, consistency
required, on the strictly increasing positive window [1, 2, 4, 8]. -/
theorem claim_C6_witness :
    (max 2 3 ≤ ([1, 2, 4, 8] : List ℚ).length ∧ (∀ x ∈ ([1, 2, 4, 8] : List ℚ), 0 < x) ∧
      List.Chain' (· < ·) ([1, 2, 4, 8] : List ℚ) ∧
      (50 : ℚ) ≤ pctChange (sliceLast [1, 2, 4, 8] 3)) ∧
    _eval_entry_signal (.percentage_change 3 50 true) [1, 2, 4, 8] none = true :=
  ⟨⟨by decide, by norm_num, by norm_num, by norm_num [pctChange, sliceLast]⟩,
    (claim_C6_percentage_change 3 50 true [1, 2, 4, 8] none (by decide)
      (by norm_num)).2.1 (by norm_num) (by norm_num [pctChange, sliceLast])⟩

/-- Claim C4: on a window long enough for long_term_uptrend the condition
triggers iff the percent-change confirmation (with consistency when required),
the MA-state confirmation and the regression confirmation all hold; in
particular a regression fit with r_squared below the 0.25 floor blocks the
trigger regardless of the other confirmations. -/
theorem claim_C4_long_term_uptrend (detection_period : ℕ) (change_threshold : ℚ)
    (enable_trend_consistency : Bool) (short_ma_period long_ma_period : ℕ)
    (window_rates : List ℚ) (window_candles : Option (List Candle))
    (hlen : max (max detection_period (long_ma_period + 2)) 60 ≤ window_rates.length) :
    (_eval_entry_signal (.long_term_uptrend detection_period change_threshold
        enable_trend_consistency short_ma_period long_ma_period)
        window_rates window_candles = true ↔
      (pctConfirmation detection_period change_threshold enable_trend_consistency window_rates ∧
        maConfirmation short_ma_period long_ma_period window_rates ∧
        regConfirmation detection_period window_rates)) ∧
    (∀ slope r2 : ℚ,
      _linear_regression_slope_r2 (sliceLast window_rates detection_period) = some (slope, r2) →
      r2 < 0.25 →
      _eval_entry_signal (.long_term_uptrend detection_period change_threshold
        enable_trend_consistency short_ma_period long_ma_period)
        window_rates window_candles = false) := by
  have main : _eval_entry_signal (.long_term_uptrend detection_period change_threshold
      enable_trend_consistency short_ma_period long_ma_period)
      window_rates window_candles = true ↔
      (pctConfirmation detection_period change_threshold enable_trend_consistency window_rates ∧
        maConfirmation short_ma_period long_ma_period window_rates ∧
        regConfirmation detection_period window_rates) := by
    by_cases hseg2 : (sliceLast window_rates detection_period).length < 2
    · have heval : _eval_entry_signal (.long_term_uptrend detection_period change_threshold
          enable_trend_consistency short_ma_period long_ma_period)
          window_rates window_candles = false := by
        simp only [_eval_entry_signal, evalLongTermUptrend]
        rw [if_neg (Nat.not_lt.mpr hlen), if_pos hseg2]
      rw [heval]
      simp only [Bool.false_eq_true, false_iff]
      rintro ⟨-, -, s, r, hlin, -, -⟩
      unfold _linear_regression_slope_r2 at hlin
      rw [if_pos hseg2] at hlin
      exact Option.noConfusion hlin
    · by_cases hold0 : (sliceLast window_rates detection_period).headD 0 = 0
      · have heval : _eval_entry_signal (.long_term_uptrend detection_period change_threshold
            enable_trend_consistency short_ma_period long_ma_period)
            window_rates window_candles = false := by
          simp only [_eval_entry_signal, evalLongTermUptrend]
          rw [if_neg (Nat.not_lt.mpr hlen), if_neg hseg2, if_pos hold0]
        rw [heval]
        simp only [Bool.false_eq_true, false_iff]
        rintro ⟨⟨-, hne0, -, -⟩, -, -⟩
        exact hne0 hold0
      · have hsegne : sliceLast window_rates detection_period ≠ [] := by
          have : 2 ≤ (sliceLast window_rates detection_period).length := Nat.not_lt.mp hseg2
          exact List.ne_nil_of_length_pos (by omega)
        simp only [_eval_entry_signal, evalLongTermUptrend]
        rw [if_neg (Nat.not_lt.mpr hlen), if_neg hseg2, if_neg hold0]
        simp only [List.headD_eq_head?_getD] at hold0
        rcases hs : _sma window_rates short_ma_period with _ | st <;>
          rcases hl : _sma window_rates long_ma_period with _ | lt <;>
            rcases hy : _sma window_rates.dropLast long_ma_period with _ | ly <;>
              rcases hlin0 : _linear_regression_slope_r2
                  (sliceLast window_rates detection_period) with _ | ⟨s0, r0⟩ <;>
                by_cases hec : enable_trend_consistency <;>
                  simp [pctConfirmation, maConfirmation, regConfirmation, hs, hl, hy,
                    hlin0, hec, hsegne, hold0, and_assoc]
  refine ⟨main, ?_⟩
  intro slope r2 hlin hr
  cases heval : _eval_entry_signal (.long_term_uptrend detection_period change_threshold
      enable_trend_consistency short_ma_period long_ma_period)
      window_rates window_candles with
  | false => rfl
  | true =>
    obtain ⟨-, -, s', r', hlin', -, hge⟩ := main.mp heval
    rw [hlin] at hlin'
    have hpair : (slope, r2) = (s', r') := Option.some.inj hlin'
    cases hpair
    exact absurd hge (not_le.mpr hr)

/-- Claim C4 witness: the theorem applied to a 60-point flat window with
period 30, threshold 5, consistency on, MA periods 5 and 20. -/
theorem claim_C4_witness :
    max (max 30 (20 + 2)) 60 ≤ (List.replicate 60 (1 : ℚ)).length ∧
    ((_eval_entry_signal (.long_term_uptrend 30 5 true 5 20)
        (List.replicate 60 (1 : ℚ)) none = true ↔
      (pctConfirmation 30 5 true (List.replicate 60 (1 : ℚ)) ∧
        maConfirmation 5 20 (List.replicate 60 (1 : ℚ)) ∧
        regConfirmation 30 (List.replicate 60 (1 : ℚ)))) ∧
    (∀ slope r2 : ℚ,
      _linear_regression_slope_r2 (sliceLast (List.replicate 60 (1 : ℚ)) 30) =
        some (slope, r2) →
      r2 < 0.25 →
      _eval_entry_signal (.long_term_uptrend 30 5 true 5 20)
        (List.replicate 60 (1 : ℚ)) none = false)) :=
  ⟨by norm_num,
    claim_C4_long_term_uptrend 30 5 true 5 20 (List.replicate 60 (1 : ℚ)) none (by norm_num)⟩

/-- Each equity entry is the previous one compounded by the trade's pnl_pct. -/
theorem equityFold_getD : ∀ (ts : List Trade) (e : ℚ) (k : ℕ), k < ts.length →
    (e :: equityFold e ts).getD (k + 1) 0 =
      (e :: equityFold e ts).getD k 0 * (1 + (ts.getD k default).pnl_pct / 100)
  | [], _, k, h => absurd h (by simp)
  | t :: ts, e, 0, _ => by simp [equityFold]
  | t :: ts, e, k + 1, h => by
      have ih := equityFold_getD ts (e * (1 + t.pnl_pct / 100)) k (by simpa using h)
      simpa [equityFold] using ih

/-- A conditional swap written with a strict inequality is the max. -/
theorem ite_lt_eq_max (a b : ℚ) : (if a < b then b else a) = max a b := by
  rcases le_or_lt b a with h | h
  · rw [if_neg (not_lt.mpr h), max_eq_left h]
  · rw [if_pos h, max_eq_right h.le]

/-- The drawdown loop of the source computes the running maximum of the
spec's per-point drawdown percentages, as long as the starting peak is
positive (the positivity guard of the source is then always taken). -/
theorem ddGo_spec : ∀ (l : List ℚ) (peak m : ℚ), 0 < peak →
    ddGo l peak m * 100 = (specDrawdowns peak l).foldl max (m * 100)
  | [], peak, m, _ => by simp [ddGo, specDrawdowns]
  | v :: rest, peak, m, hp => by
      have hpeak2 : (if peak < v then v else peak) = max peak v := ite_lt_eq_max peak v
      have hp2 : 0 < max peak v := lt_of_lt_of_le hp (le_max_left _ _)
      have ih := ddGo_spec rest (max peak v)
        (if m < (max peak v - v) / max peak v then (max peak v - v) / max peak v else m) hp2
      simp only [ddGo, specDrawdowns, hpeak2, if_pos hp2, List.foldl_cons]
      rw [ih, ite_lt_eq_max m ((max peak v - v) / max peak v),
        max_mul_of_nonneg _ _ (by norm_num : (0 : ℚ) ≤ 100)]

/-- On a curve with positive first value the source's max drawdown equals the
spec's: the maximum over the curve of (running peak - value)/running peak
x 100, zero when no drawdown occurs. -/
theorem max_drawdown_spec (curve : List ℚ) (h : 0 < curve.headD 1) :
    _max_drawdown curve = specMaxDrawdown curve := by
  cases curve with
  | nil => rfl
  | cons c rest =>
    have hc : 0 < c := by simpa using h
    have hdd := ddGo_spec (c :: rest) c 0 hc
    unfold _max_drawdown specMaxDrawdown
    simpa using hdd

/-- Claim C8: the equity curve starts at the initial capital and compounds
sequentially by each trade's pnl_pct; max_drawdown_pct is the maximum over the
curve of (running peak - value)/running peak x 100 (0 with no drawdown); the
curve [10000, 11000, 9000, 9900] yields (11000 - 9000)/11000 x 100. -/
theorem claim_C8_equity_and_drawdown (trades : List Trade) (initial_capital : ℚ)
    (h : 0 < initial_capital) :
    ((_equity_curve_from_trades trades initial_capital).getD 0 0 = initial_capital ∧
      (∀ k, k < trades.length →
        (_equity_curve_from_trades trades initial_capital).getD (k + 1) 0 =
          (_equity_curve_from_trades trades initial_capital).getD k 0 *
            (1 + (trades.getD k default).pnl_pct / 100))) ∧
    _max_drawdown (_equity_curve_from_trades trades initial_capital) =
      specMaxDrawdown (_equity_curve_from_trades trades initial_capital) ∧
    _max_drawdown [10000, 11000, 9000, 9900] = (11000 - 9000) / 11000 * 100 := by
  refine ⟨⟨rfl, fun k hk => equityFold_getD trades initial_capital k hk⟩, ?_, ?_⟩
  · exact max_drawdown_spec _ (by simpa [_equity_curve_from_trades] using h)
  · norm_num [_max_drawdown, ddGo]

/-- Claim C8 witness: the theorem at the empty ledger with capital 10000,
exposing the concrete drawdown scenario value. -/
theorem claim_C8_witness :
    (0 : ℚ) < 10000 ∧
    _max_drawdown (_equity_curve_from_trades [] 10000) =
      specMaxDrawdown (_equity_curve_from_trades [] 10000) ∧
    _max_drawdown [10000, 11000, 9000, 9900] = (11000 - 9000) / 11000 * 100 :=
  ⟨by norm_num, (claim_C8_equity_and_drawdown [] 10000 (by norm_num)).2.1,
    (claim_C8_equity_and_drawdown [] 10000 (by norm_num)).2.2⟩

/-- One when a position is open, zero when flat. -/
def posBit (st : SimState) : ℕ := if st.in_position then 1 else 0

/-- A walk step either leaves the state unchanged, opens a position (from
flat), or closes the open position appending exactly one trade. -/
theorem backtestStep_cases (entry : EntryConfig) (exit_cfg : ExitConfig)
    (candles : List Candle) (allow : Bool) (st : SimState) (i : ℕ) :
    backtestStep entry exit_cfg candles allow st i = st ∨
    (st.in_position = false ∧ ∃ p d, backtestStep entry exit_cfg candles allow st i =
      { st with in_position := true, entry_price := p, entry_date := d, entry_index := i }) ∨
    (st.in_position = true ∧ ∃ t b, backtestStep entry exit_cfg candles allow st i =
      { st with trades := st.trades ++ [t], in_position := false, stopped := b }) := by
  simp only [backtestStep]
  split
  · exact Or.inl rfl
  · split
    next hflat =>
      split
      · exact Or.inr (Or.inl ⟨by simpa using hflat, _, _, rfl⟩)
      · exact Or.inl rfl
    next hflat =>
      split
      · exact Or.inr (Or.inr ⟨by simpa using hflat, _, _, rfl⟩)
      · exact Or.inl rfl

/-- One walk step changes the trades-plus-open-position count exactly by the
opened-position indicator: an entry adds an open position, an exit converts
the open position into one appended Trade, everything else changes neither. -/
theorem backtestStep_count (entry : EntryConfig) (exit_cfg : ExitConfig)
    (candles : List Candle) (allow : Bool) (st : SimState) (i : ℕ) :
    (backtestStep entry exit_cfg candles allow st i).trades.length +
      posBit (backtestStep entry exit_cfg candles allow st i) =
    st.trades.length + posBit st +
      (if !st.in_position && (backtestStep entry exit_cfg candles allow st i).in_position
        then 1 else 0) := by
  rcases backtestStep_cases entry exit_cfg candles allow st i with
    h | ⟨hpos, p, d, h⟩ | ⟨hpos, t, b, h⟩
  · rw [h]
    cases hp : st.in_position <;> simp [posBit, hp]
  · rw [h]
    simp [posBit, hpos]
  · rw [h]
    simp [posBit, hpos]

/-- The counting fold runs the same walk in its first component. -/
theorem foldl_counting_fst (entry : EntryConfig) (exit_cfg : ExitConfig)
    (candles : List Candle) (allow : Bool) : ∀ (l : List ℕ) (st : SimState) (k : ℕ),
    (l.foldl (backtestStepCounting entry exit_cfg candles allow) (st, k)).1 =
      l.foldl (backtestStep entry exit_cfg candles allow) st
  | [], _, _ => rfl
  | i :: l, st, k => by
      simp only [List.foldl_cons, backtestStepCounting]
      exact foldl_counting_fst entry exit_cfg candles allow l _ _

/-- Fold invariant: closed trades plus the open position account exactly for
the positions opened so far. -/
theorem foldl_counting_invariant (entry : EntryConfig) (exit_cfg : ExitConfig)
    (candles : List Candle) (allow : Bool) : ∀ (l : List ℕ) (st : SimState) (k : ℕ),
    (l.foldl (backtestStepCounting entry exit_cfg candles allow) (st, k)).1.trades.length +
      posBit (l.foldl (backtestStepCounting entry exit_cfg candles allow) (st, k)).1 + k =
    st.trades.length + posBit st +
      (l.foldl (backtestStepCounting entry exit_cfg candles allow) (st, k)).2
  | [], _, _ => by simp
  | i :: l, st, k => by
      simp only [List.foldl_cons, backtestStepCounting]
      have ih := foldl_counting_invariant entry exit_cfg candles allow l
        (backtestStep entry exit_cfg candles allow st i)
        (k + if !st.in_position && (backtestStep entry exit_cfg candles allow st i).in_position
          then 1 else 0)
      have hstep := backtestStep_count entry exit_cfg candles allow st i
      omega

/-- Claim C2: over a usable series every position the simulator opens yields
exactly one Trade in the ledger (the ledger length equals the number of
openings), and a position still open when the walk ends is force-closed at the
final close with exit_reason "end_of_data". -/
theorem claim_C2_one_trade_per_position (entry : EntryConfig) (exit_cfg : ExitConfig)
    (candles : List Candle) (allow_multiple_trades : Bool)
    (h5 : 5 ≤ candles.length)
    (hround : roundq 6 (candles.getLastD default).close = (candles.getLastD default).close) :
    (backtestTrades entry exit_cfg candles allow_multiple_trades).length =
      openedPositions entry exit_cfg candles allow_multiple_trades ∧
    ((backtestWalk entry exit_cfg candles allow_multiple_trades).in_position = true →
      ∃ t : Trade,
        (backtestTrades entry exit_cfg candles allow_multiple_trades).getLast? = some t ∧
        t.exit_reason = "end_of_data" ∧
        t.exit_price = (candles.getLastD default).close) := by
  constructor
  · have hfst := foldl_counting_fst entry exit_cfg candles allow_multiple_trades
      (List.range' 1 (candles.length - 1)) initSimState 0
    have hinv := foldl_counting_invariant entry exit_cfg candles allow_multiple_trades
      (List.range' 1 (candles.length - 1)) initSimState 0
    rw [hfst] at hinv
    have h0 : initSimState.trades.length = 0 := rfl
    have h1 : posBit initSimState = 0 := rfl
    rw [h0, h1] at hinv
    have hlen : (backtestTrades entry exit_cfg candles allow_multiple_trades).length =
        (backtestWalk entry exit_cfg candles allow_multiple_trades).trades.length +
          posBit (backtestWalk entry exit_cfg candles allow_multiple_trades) := by
      unfold backtestTrades finalizeTrades posBit
      split
      · simp [*]
      · simp [*]
    rw [hlen]
    unfold backtestWalk openedPositions
    omega
  · intro hpos
    unfold backtestTrades finalizeTrades
    rw [if_pos hpos]
    refine ⟨_, List.getLast?_concat _, ?_, ?_⟩
    · rfl
    · simpa using hround

/-- A six-day demonstration series of degenerate candles with ascending
closes. -/
def demoCandles : List Candle :=
  [⟨"d0", 1, 1, 1, 1⟩, ⟨"d1", 2, 2, 2, 2⟩, ⟨"d2", 3, 3, 3, 3⟩,
   ⟨"d3", 4, 4, 4, 4⟩, ⟨"d4", 5, 5, 5, 5⟩, ⟨"d5", 6, 6, 6, 6⟩]

/-- Claim C2 witness: the theorem applied to the six-candle series with an
always-on between entry and an exit configuration with no exit fields. -/
theorem claim_C2_witness :
    (5 ≤ demoCandles.length ∧
      roundq 6 (demoCandles.getLastD default).close = (demoCandles.getLastD default).close) ∧
    ((backtestTrades (.price_level "between" (some 100) (some 0)) {} demoCandles true).length =
        openedPositions (.price_level "between" (some 100) (some 0)) {} demoCandles true ∧
      ((backtestWalk (.price_level "between" (some 100) (some 0)) {}
          demoCandles true).in_position = true →
        ∃ t : Trade,
          (backtestTrades (.price_level "between" (some 100) (some 0))
            {} demoCandles true).getLast? = some t ∧
          t.exit_reason = "end_of_data" ∧
          t.exit_price = (demoCandles.getLastD default).close)) :=
  ⟨⟨by decide, by norm_num [demoCandles, roundq, round_eq]⟩,
    claim_C2_one_trade_per_position _ _ demoCandles true (by decide)
      (by norm_num [demoCandles, roundq, round_eq])⟩
